import Mathlib

/-!
Shallow embedding of the scroll-wheel selector engine of
`vue-ios-style-datepicker`.

The repository contains two variants of the engine:

* `Simple` — the translate-based variant (`createIosSelector` working on a
  flat `translateY` list, item height fixed at 36px, five copies of the
  source rendered in infinite mode);
* `Cyl` — the 3D-cylinder variant (`src/core/IosSelector.ts`, scroll kept
  in item units, source list expanded by whole copies in infinite mode).

Numbers are embedded as `ℚ` (exact rational arithmetic standing for the
ideal real semantics of the JS code); the places where JavaScript number
semantics differ from field arithmetic (truncated `%`, `Math.round`,
division by zero producing `Infinity`/`NaN`) are modelled explicitly by
the `js*` helpers and the `JSVal` type below.
-/

namespace DatePicker

/-- A wheel option: `{ value: number, label: string }` (`src/core/types.ts`,
`SelectorOption`). -/
structure SelectorOption where
  value : Int
  label : String
deriving DecidableEq

/-- The selector mode: `type: 'normal' | 'infinite'`. -/
inductive Mode where
  | normal
  | infinite
deriving DecidableEq

/-- JavaScript `Math.round`: rounds half toward positive infinity,
`Math.round(x) = ⌊x + 1/2⌋` for finite `x`. -/
def jsRound (q : ℚ) : ℤ := ⌊q + 1/2⌋

/-- Truncation toward zero, as used by the JS `%` operator on numbers. -/
def jsTrunc (q : ℚ) : ℤ := if 0 ≤ q then ⌊q⌋ else ⌈q⌉

/-- JavaScript `%` on numbers: remainder with the sign of the dividend
(`a % b = a - b * trunc(a / b)`).  `a % 0` is `NaN` in JS; the embedded
code never divides by zero on the paths the theorems quantify over
(every theorem assumes a nonempty source), and we return `0` there. -/
def jsFmod (a b : ℚ) : ℚ := if b = 0 then 0 else a - b * jsTrunc (a / b)

/-- A JavaScript number as produced by the release-velocity computation:
either a finite value, a signed infinity (division of a nonzero finite
value by zero), or `NaN` (`0 / 0`). -/
inductive JSVal where
  | fin (q : ℚ)
  | inf (pos : Bool)
  | nan
deriving DecidableEq

/-- JavaScript division: `a / 0` is `±Infinity` for `a ≠ 0` (sign of `a`)
and `NaN` for `a = 0`; otherwise exact. -/
def jsDiv (a b : ℚ) : JSVal :=
  if b = 0 then (if a = 0 then .nan else .inf (0 < a)) else .fin (a / b)

/-- `v > 0` on a JS number (`NaN > 0` is false, `Infinity > 0` is true). -/
def JSVal.gtZero : JSVal → Bool
  | .fin q => 0 < q
  | .inf b => b
  | .nan => false

/-- `Math.abs(v) > 30` on a JS number (`Math.abs(NaN) > 30` is false,
`Math.abs(±Infinity) > 30` is true). -/
def JSVal.absGt30 : JSVal → Bool
  | .fin q => 30 < |q|
  | .inf _ => true
  | .nan => false

/-- JavaScript array indexing with an integer index: `l[i]` is `undefined`
(here `none`) for `i < 0` or `i ≥ l.length`. -/
def jsIndex {α : Type} (l : List α) (i : ℤ) : Option α :=
  if 0 ≤ i then l.get? i.toNat else none

/-- JavaScript array indexing with a (possibly fractional) number index:
`l[q]` is `undefined` unless `q` is a nonnegative integer below the
length. -/
def jsIndexQ {α : Type} (l : List α) (q : ℚ) : Option α :=
  if 0 ≤ q ∧ q.den = 1 then l.get? q.num.toNat else none

/-- JavaScript `Array.prototype.findIndex`: the first index whose element
satisfies the predicate, `-1` if none does. -/
def jsFindIndex {α : Type} (p : α → Bool) (l : List α) : ℤ :=
  match l.findIdx? p with
  | some i => (i : ℤ)
  | none => -1

namespace Simple

/-- `const itemHeight = 36` (simple variant). -/
def itemHeight : ℚ := 36

/-- `const halfCount = Math.floor(count / 2)`. -/
def halfCount (count : ℕ) : ℕ := count / 2

/-- `getSourceIndexFromPosition(y)` of the simple variant.  In infinite
mode the DOM index under the highlight is `Math.round(halfCount - y /
itemHeight)`, normalized by the JS idiom `((domIndex % len) + len) % len`
(JS `%` on integers is `Int.tmod`).  In normal mode it is
`Math.round(-y / itemHeight)` clamped by
`Math.max(0, Math.min(index, source.length - 1))`. -/
def getSourceIndexFromPosition (mode : Mode) (count len : ℕ) (y : ℚ) : ℤ :=
  match mode with
  | .infinite =>
    let domIndex : ℤ := jsRound ((halfCount count : ℚ) - y / itemHeight)
    (domIndex.tmod len + len).tmod len
  | .normal =>
    let index : ℤ := jsRound (-y / itemHeight)
    max 0 (min index ((len : ℤ) - 1))

/-- `getPositionFromSourceIndex(index)` of the simple variant.  In infinite
mode the middle copy (set 2 of the five rendered copies) starts at DOM index
`2 * source.length` and the aligned position is
`(halfCount - domIndex) * itemHeight`; in normal mode it is
`-index * itemHeight`. -/
def getPositionFromSourceIndex (mode : Mode) (count len : ℕ) (index : ℤ) : ℚ :=
  match mode with
  | .infinite =>
    let middleSetStart : ℤ := 2 * len
    let domIndex : ℤ := middleSetStart + index
    (((halfCount count : ℤ) - domIndex : ℤ) : ℚ) * itemHeight
  | .normal => -(index : ℚ) * itemHeight

/-- `wrapToMiddleSet()` of the simple variant (state effect on `currentY`
only): re-centers the position into the middle copy of the five rendered
source copies by whole multiples of `setHeight = source.length *
itemHeight`, using `Math.floor(x + 0.5)`. -/
def wrapToMiddleSet (count len : ℕ) (y : ℚ) : ℚ :=
  let setHeight : ℚ := (len : ℚ) * itemHeight
  let middleSetStart : ℚ := ((halfCount count : ℚ) - 2 * (len : ℚ)) * itemHeight
  let middleSetEnd : ℚ := middleSetStart - setHeight
  if y > middleSetStart + setHeight then
    y - setHeight * (⌊(y - middleSetStart) / setHeight + 1/2⌋ : ℤ)
  else if y < middleSetEnd - setHeight then
    y + setHeight * (⌊(middleSetEnd - y) / setHeight + 1/2⌋ : ℤ)
  else y

/-- One frame of the simple variant's `decelerate` loop body, on the pair
`(velocity, currentY)`: `velocity *= 0.95; currentY += velocity`, then the
normal-mode bounds check (clamping `currentY` into
`[-(length-1)*itemHeight, 0]` and zeroing the velocity at a bound) or the
infinite-mode `wrapToMiddleSet()`.  The loop runs this body while
`|velocity| ≥ 0.5` and snaps once `|velocity| < 0.5`. -/
def decelStep (mode : Mode) (count len : ℕ) (s : ℚ × ℚ) : ℚ × ℚ :=
  let v := s.1 * (19/20)
  let y := s.2 + v
  match mode with
  | .normal =>
    let minY : ℚ := -((len : ℚ) - 1) * itemHeight
    let maxY : ℚ := 0
    if y > maxY then (0, maxY)
    else if y < minY then (0, minY)
    else (v, y)
  | .infinite => (v, wrapToMiddleSet count len y)

/-- The mutable closure state of the simple variant's selector instance:
`source`, `currentIndex`, `currentY`, `velocity`, plus booleans recording
whether a frame callback (`animationId`) or the wheel-debounce timer
(`wheelTimeout`) is currently scheduled and whether `wrapper` is still a
child of `el` (`attached`, consumed by `destroy`'s `el.removeChild`).
`mode` and `count` are the construction configuration. -/
structure State where
  mode : Mode
  count : ℕ
  source : List SelectorOption
  currentIndex : ℤ
  currentY : ℚ
  velocity : ℚ
  animationId : Bool
  wheelTimeout : Bool
  attached : Bool
deriving DecidableEq

/-- `getValue()` of the simple variant: `source[currentIndex]?.value ?? 0`. -/
def getValue (st : State) : ℤ :=
  match jsIndex st.source st.currentIndex with
  | some o => o.value
  | none => 0

/-- `updateSource(newSource)` of the simple variant: replaces `source`,
re-renders, then looks up `source.findIndex((s) => s.value ===
currentIndex)` — the new option whose *value* equals the old selected
*index* (this comparison is what the accompanying source comment
"Re-select current value if still exists" describes incorrectly).  If
found it only repositions (`currentIndex` is left unchanged); otherwise it
resets `currentIndex` to `0` and repositions to index 0.  No `onChange`
call appears on either path, so the emitted-callback list is empty. -/
def updateSource (st : State) (newSource : List SelectorOption) :
    State × List SelectorOption :=
  let st1 : State := { st with source := newSource }
  let index := jsFindIndex (fun s => s.value == st1.currentIndex) st1.source
  if index ≠ -1 then
    ({ st1 with currentY :=
        getPositionFromSourceIndex st1.mode st1.count st1.source.length index }, [])
  else
    ({ st1 with
        currentIndex := 0,
        currentY := getPositionFromSourceIndex st1.mode st1.count st1.source.length 0 }, [])

/-- `select(value)` of the simple variant: looks up the value; if absent
this is a no-op.  If present it sets `currentIndex` and animates the list
to the aligned position (`setPosition(targetY, true)`).  It does not
cancel a running animation frame loop (`animationId` is untouched) and
never calls `onChange`. -/
def select (st : State) (value : ℤ) : State × List SelectorOption :=
  let index := jsFindIndex (fun s => s.value == value) st.source
  if index ≠ -1 then
    ({ st with
        currentIndex := index,
        currentY := getPositionFromSourceIndex st.mode st.count st.source.length index }, [])
  else (st, [])

/-- `destroy()` of the simple variant: cancels a pending animation frame
(if any), detaches the four listeners (harmless when already detached),
then calls `el.removeChild(wrapper)` — which throws a `NotFoundError`
when `wrapper` is no longer a child of `el`, i.e. on a second `destroy()`.
The pending `wheelTimeout` is *not* cleared.  The `Except` models the DOM
exception. -/
def destroy (st : State) : Except String State :=
  let st1 : State := { st with animationId := false }
  if st1.attached then .ok { st1 with attached := false }
  else .error "NotFoundError"

/-- The state set up by `createIosSelector(config)` of the simple variant:
`currentIndex` starts at `0`; if `config.value` is given and found in the
source, `currentIndex` and the position are moved to it. -/
def init (mode : Mode) (count : ℕ) (source : List SelectorOption)
    (value : Option ℤ) : State :=
  let st : State :=
    { mode := mode
      count := count
      source := source
      currentIndex := 0
      currentY := 0
      velocity := 0
      animationId := false
      wheelTimeout := false
      attached := true }
  match value with
  | none => st
  | some v =>
    let index := jsFindIndex (fun s => s.value == v) source
    if index ≠ -1 then
      { st with
        currentIndex := index
        currentY := getPositionFromSourceIndex mode count source.length index }
    else st

end Simple

namespace Cyl

/-- The velocity clamp of the cylinder variant's `handleTouchEnd`:
`const sign = v > 0 ? 1 : -1; v = Math.abs(v) > 30 ? 30 * sign : v`. -/
def clampVelocity (v : JSVal) : JSVal :=
  let sign : ℚ := if v.gtZero then 1 else -1
  if v.absGt30 then .fin (30 * sign) else v

/-- The release-velocity computation of the cylinder variant's
`handleTouchEnd`: if only one sample was recorded the velocity is `0`;
otherwise, from the two most recent samples `(startY, startTime)` and
`(endY, endTime)` of `touchData.yArr`,
`v = (((startY - endY) / itemHeight) * 1000) / (endTime - startTime)`,
then clamped.  Samples are `(clientY, Date.now())` pairs; `yArr` always
holds at least one sample in the source (seeded by `handleTouchStart`),
so the `[]` case is unreachable there. -/
def handleTouchEndVelocity (ih : ℚ) (yArr : List (ℚ × ℚ)) : JSVal :=
  if yArr.length = 1 then .fin 0
  else
    let len := yArr.length
    let s := yArr.getD (len - 2) (0, 0)
    let e := yArr.getD (len - 1) (0, 0)
    clampVelocity (jsDiv ((s.1 - e.1) / ih * 1000) (e.2 - s.2))

/-- `const itemCount = count - (count % 4)` — the visible item count
coerced to a multiple of 4 (cylinder variant). -/
def itemCount (count : ℕ) : ℕ := count - count % 4

/-- `const halfCount = itemCount / 2`. -/
def halfCount (count : ℕ) : ℕ := itemCount count / 2

/-- The `while (concatSource.length < halfCount) concatSource =
[...concatSource, ...sourceData]` loop of the cylinder variant's
`create`.  The loop body only runs for a nonempty `src` (the enclosing
`create` returns early on an empty source), which the extra `0 <
src.length` guard records to make the recursion well-founded; on every
reachable call it is vacuously true. -/
def concatGo (hc : ℕ) (src : List SelectorOption) (acc : List SelectorOption) :
    List SelectorOption :=
  if h : acc.length < hc ∧ 0 < src.length then concatGo hc src (acc ++ src) else acc
termination_by hc - acc.length
decreasing_by
  simp only [List.length_append]
  omega

/-- `create(sourceData)` of the cylinder variant, restricted to its effect
on the instance's `source` binding: an empty `sourceData` returns early
(leaving `source` untouched); in infinite mode `source` becomes
`sourceData` concatenated with itself until its length reaches
`halfCount`; in normal mode `source` becomes `sourceData` itself. -/
def createSource (mode : Mode) (count : ℕ)
    (old new : List SelectorOption) : List SelectorOption :=
  if new.length = 0 then old
  else
    match mode with
    | .infinite => concatGo (halfCount count) new new
    | .normal => new

/-- `normalizeScroll(s)` of the cylinder variant:
`while (normalized < 0) normalized += source.length; return normalized %
source.length` with JS `%` on numbers.  With an empty source the JS loop
would never terminate for `s < 0` (and `s % 0` is `NaN`); the `0 < len`
guard makes the recursion well-founded and every theorem below assumes a
nonempty source. -/
def normalizeScroll (len : ℕ) (s : ℚ) : ℚ :=
  if h : s < 0 ∧ 0 < len then normalizeScroll len (s + len) else jsFmod s len
termination_by (⌈-s⌉).toNat
decreasing_by
  have h1 : (0 : ℚ) < -s := by linarith [h.1]
  have h2 : (1 : ℤ) ≤ ⌈-s⌉ := Int.ceil_pos.mpr h1
  have h3 : ⌈-(s + (len : ℚ))⌉ = ⌈-s⌉ - (len : ℤ) := by
    rw [show -(s + (len : ℚ)) = -s - ((len : ℤ) : ℚ) by push_cast; ring,
      Int.ceil_sub_int]
  have h4 : (1 : ℤ) ≤ (len : ℤ) := by exact_mod_cast h.2
  omega

/-- `moveTo(s)` of the cylinder variant, restricted to its returned scroll
value: infinite mode normalizes, normal mode passes through (the rest of
`moveTo` only writes CSS transforms). -/
def moveTo (mode : Mode) (len : ℕ) (s : ℚ) : ℚ :=
  match mode with
  | .infinite => normalizeScroll len s
  | .normal => s

/-- The mutable closure state of the cylinder variant's selector instance.
`rafPending`/`timerPending` record whether a frame callback / the wheel
debounce `setTimeout` is scheduled (both handles are stored in the single
variable `moveT` in the source); `destroyed` records that `destroy()` ran
(listeners detached, `el.innerHTML` cleared). -/
structure State where
  mode : Mode
  count : ℕ
  source : List SelectorOption
  scroll : ℚ
  selected : Option SelectorOption
  moving : Bool
  rafPending : Bool
  timerPending : Bool
  destroyed : Bool
deriving DecidableEq

/-- `selectByScroll(s)` of the cylinder variant: normalize (infinite) or
round (normal) the scroll, clamp above by `source.length - 1`, store it,
set `selected = source[s]` (which is `undefined` — `none` — when `s` is
not a valid integer index), and invoke `onChange(selected)` when
`selected` is defined.  The second component is the list of `onChange`
invocations this call performs. -/
def selectByScroll (st : State) (s : ℚ) : State × List SelectorOption :=
  let s1 : ℚ :=
    match st.mode with
    | .infinite => normalizeScroll st.source.length s
    | .normal => (jsRound s : ℚ)
  let s2 : ℚ := if s1 > (st.source.length : ℚ) - 1 then (st.source.length : ℚ) - 1 else s1
  let sel := jsIndexQ st.source s2
  ({ st with
      scroll := s2
      selected := sel }, sel.toList)

/-- `create(sourceData)` as a state transformer (DOM construction elided). -/
def create (st : State) (sourceData : List SelectorOption) : State :=
  { st with source := createSource st.mode st.count st.source sourceData }

/-- `updateSource(newSource)` of the cylinder variant: rebuild via
`create`, then — unless an animation is in flight — re-resolve the
selection with `selectByScroll(scroll)`, which *does* invoke `onChange`. -/
def updateSource (st : State) (newSource : List SelectorOption) :
    State × List SelectorOption :=
  let st1 := create st newSource
  if st1.moving then (st1, []) else selectByScroll st1 st1.scroll

/-- `select(value)` of the cylinder variant, big-stepped to the completion
of its animation: look up the value (no-op when absent); otherwise
`stop()` cancels the running frame loop, `animateToScroll` eases from the
normalized current scroll to `index` (the easing duration only shapes the
intermediate frames; the settled scroll is `index`), and on completion
`selectByScroll(index)` resolves the selection and fires `onChange`. -/
def select (st : State) (value : ℤ) : State × List SelectorOption :=
  let index := jsFindIndex (fun s => s.value == value) st.source
  if index ≠ -1 then
    let st1 : State := { st with moving := false, rafPending := false }
    selectByScroll st1 (index : ℚ)
  else (st, [])

/-- `getValue()` of the cylinder variant: `selected?.value ?? 0`. -/
def getValue (st : State) : ℤ :=
  match st.selected with
  | some o => o.value
  | none => 0

/-- `destroy()` of the cylinder variant: `stop()` sets `moving = false`
and calls `cancelAnimationFrame(moveT)` — which cancels a pending *frame
callback* but not a pending *timeout*, so a scheduled wheel-debounce
timer survives (`timerPending` is unchanged); then all listeners are
detached and `el.innerHTML` is cleared.  Calling it twice is harmless. -/
def destroy (st : State) : State :=
  { st with
      moving := false
      rafPending := false
      destroyed := true }

/-- `handleWheel(e)` of the cylinder variant: `stop()`, apply the wheel
delta `e.deltaY / itemHeight`, clamp in normal mode, re-render via
`moveTo` (whose normalized value is stored back into `scroll`), then
`clearTimeout(moveT); moveT = window.setTimeout(..., 150)` — leaving
exactly one debounce timer pending. -/
def handleWheel (st : State) (deltaY ih : ℚ) : State :=
  let st1 : State := { st with moving := false, rafPending := false }
  let newScroll := st1.scroll + deltaY / ih
  let newScroll2 : ℚ :=
    match st1.mode with
    | .normal => max 0 (min newScroll ((st1.source.length : ℚ) - 1))
    | .infinite => newScroll
  { st1 with
      scroll := moveTo st1.mode st1.source.length newScroll2
      timerPending := true }

/-- The body of the wheel-debounce `setTimeout` callback, big-stepped to
the completion of its 0.1s snap animation: `animateToScroll(scroll,
Math.round(scroll), 0.1).then(() => selectByScroll(finalScroll))`. -/
def wheelTimerFire (st : State) : State × List SelectorOption :=
  let finalScroll : ℚ := (jsRound st.scroll : ℚ)
  let st1 : State := { st with timerPending := false, moving := false }
  selectByScroll st1 finalScroll

/-- The external events relevant to the destroy/timer interaction. -/
inductive Event where
  | wheel (deltaY ih : ℚ)
  | destroyEv
  | timerFire

/-- One event step of the cylinder instance.  A wheel event after
`destroy()` is a no-op because the listeners were detached; the host
fires a scheduled `setTimeout` regardless of destruction, because
`destroy()` never clears it (its `stop()` only calls
`cancelAnimationFrame`). -/
def step (st : State) (e : Event) : State × List SelectorOption :=
  match e with
  | .wheel d ih => if st.destroyed then (st, []) else (handleWheel st d ih, [])
  | .destroyEv => (destroy st, [])
  | .timerFire => if st.timerPending then wheelTimerFire st else (st, [])

/-- The state set up by `createIosSelector(config)` of the cylinder
variant: `selected` starts at `source[0]` (before expansion), `create`
expands the source, and a given `config.value` found in the *expanded*
source moves `scroll`/`selected` to its index. -/
def init (mode : Mode) (count : ℕ) (source : List SelectorOption)
    (value : Option ℤ) : State :=
  let st0 : State :=
    { mode := mode
      count := count
      source := source
      scroll := 0
      selected := source.head?
      moving := false
      rafPending := false
      timerPending := false
      destroyed := false }
  let st1 := create st0 source
  match value with
  | none => st1
  | some v =>
    let index := jsFindIndex (fun s => s.value == v) st1.source
    if index ≠ -1 then
      { st1 with
          scroll := (index : ℚ)
          selected := jsIndex st1.source index }
    else st1

/-- `n` concatenated copies of `l` (the shape `[...l, ...l, ..., ...l]`
produced by the `create` expansion loop). -/
def joinRep (n : ℕ) (l : List SelectorOption) : List SelectorOption :=
  (List.replicate n l).flatten

end Cyl

theorem jsRound_intCast (z : ℤ) : jsRound (z : ℚ) = z := by
  unfold jsRound
  rw [add_comm, Int.floor_add_int]
  norm_num

/-- The negation rule for truncated remainder, `(-a).tmod n = -(a.tmod n)`
(JS `%` takes the dividend's sign). -/
theorem neg_tmod (a n : ℤ) : (-a).tmod n = -(a.tmod n) := by
  rw [Int.tmod_def, Int.tmod_def, Int.neg_tdiv]
  ring

theorem neg_lt_tmod (a : ℤ) {n : ℤ} (hn : 0 < n) : -n < a.tmod n := by
  rcases le_or_lt 0 a with ha | ha
  · have := Int.tmod_nonneg n ha
    omega
  · have h1 : (-a).tmod n < n := Int.tmod_lt_of_pos (-a) hn
    rw [neg_tmod] at h1
    omega

/-- The JS idiom `((a % n) + n) % n` (with `%` the truncated remainder)
computes the mathematical (nonnegative) residue `a.emod n`. -/
theorem js_double_mod (a n : ℤ) (hn : 0 < n) : (a.tmod n + n).tmod n = a % n := by
  have hq : a.tmod n = a - n * a.tdiv n := Int.tmod_def a n
  have hlo : -n < a.tmod n := neg_lt_tmod a hn
  have hnn : 0 ≤ a.tmod n + n := by omega
  rw [Int.tmod_eq_emod hnn hn.le]
  have h1 : (a.tmod n + n * 1) % n = a.tmod n % n := Int.add_mul_emod_self_left ..
  rw [mul_one] at h1
  rw [h1, hq]
  have h2 : a - n * a.tdiv n = a + n * (-(a.tdiv n)) := by ring
  rw [h2, Int.add_mul_emod_self_left]

namespace Simple

theorem domIndex_eval (count len : ℕ) (i : ℤ) (k : ℤ) :
    (halfCount count : ℚ) -
      (getPositionFromSourceIndex .infinite count len i + k * (len * itemHeight)) / itemHeight
      = ((2 * len + i - k * len : ℤ) : ℚ) := by
  unfold getPositionFromSourceIndex itemHeight
  push_cast
  ring

theorem domIndex_eval0 (count len : ℕ) (i : ℤ) :
    (halfCount count : ℚ) -
      getPositionFromSourceIndex .infinite count len i / itemHeight
      = ((2 * len + i : ℤ) : ℚ) := by
  unfold getPositionFromSourceIndex itemHeight
  push_cast
  ring

theorem decelStep_fst_abs_le (mode : Mode) (count len : ℕ) (s : ℚ × ℚ) :
    |(decelStep mode count len s).1| ≤ |s.1| * (19/20) := by
  have habs : |s.1 * (19/20 : ℚ)| = |s.1| * (19/20) := by
    rw [abs_mul]
    norm_num
  cases mode with
  | normal =>
    simp only [decelStep]
    split
    · simpa using mul_nonneg (abs_nonneg s.1) (show (0:ℚ) ≤ 19/20 by norm_num)
    · split
      · simpa using mul_nonneg (abs_nonneg s.1) (show (0:ℚ) ≤ 19/20 by norm_num)
      · exact le_of_eq habs
  | infinite =>
    simp only [decelStep]
    exact le_of_eq habs

theorem decelStep_iterate_abs_le (mode : Mode) (count len : ℕ) (s : ℚ × ℚ)
    (n : ℕ) :
    |((decelStep mode count len)^[n] s).1| ≤ |s.1| * (19/20) ^ n := by
  induction n with
  | zero => simp
  | succ n ihn =>
    rw [Function.iterate_succ_apply']
    calc |(decelStep mode count len ((decelStep mode count len)^[n] s)).1|
        ≤ |((decelStep mode count len)^[n] s).1| * (19/20) :=
          decelStep_fst_abs_le mode count len _
      _ ≤ (|s.1| * (19/20) ^ n) * (19/20) :=
          mul_le_mul_of_nonneg_right ihn (by norm_num)
      _ = |s.1| * (19/20) ^ (n + 1) := by ring

end Simple

namespace Cyl

theorem getD_append_two_left {α : Type} (l : List α) (p q d : α) :
    (l ++ [p, q]).getD l.length d = p := by
  induction l with
  | nil => rfl
  | cons a t ih => simpa using ih

theorem getD_append_two_right {α : Type} (l : List α) (p q d : α) :
    (l ++ [p, q]).getD (l.length + 1) d = q := by
  induction l with
  | nil => rfl
  | cons a t ih => simpa using ih

theorem concatGo_done (hc : ℕ) (src acc : List SelectorOption)
    (h : ¬(acc.length < hc ∧ 0 < src.length)) : concatGo hc src acc = acc := by
  rw [concatGo.eq_def, dif_neg h]

theorem concatGo_step (hc : ℕ) (src acc : List SelectorOption)
    (h : acc.length < hc ∧ 0 < src.length) :
    concatGo hc src acc = concatGo hc src (acc ++ src) := by
  rw [concatGo.eq_def, dif_pos h]

theorem normalizeScroll_eval (len : ℕ) (s : ℚ) (h : ¬(s < 0 ∧ 0 < len)) :
    normalizeScroll len s = jsFmod s len := by
  rw [normalizeScroll.eq_def, dif_neg h]

theorem jsFmod_of_nonneg_lt (a b : ℚ) (h0 : 0 ≤ a) (h1 : a < b) :
    jsFmod a b = a := by
  have hb : 0 < b := lt_of_le_of_lt h0 h1
  unfold jsFmod jsTrunc
  rw [if_neg (ne_of_gt hb), if_pos (div_nonneg h0 hb.le)]
  have hfl : ⌊a / b⌋ = 0 := by
    rw [Int.floor_eq_zero_iff]
    exact ⟨div_nonneg h0 hb.le, by rw [div_lt_one hb]; exact h1⟩
  rw [hfl]
  push_cast
  ring

theorem normalizeScroll_of_nonneg_lt (len : ℕ) (s : ℚ) (h0 : 0 ≤ s)
    (h1 : s < len) : normalizeScroll len s = s := by
  rw [normalizeScroll_eval len s (by rintro ⟨hs, _⟩; linarith)]
  exact jsFmod_of_nonneg_lt s len h0 h1

/-- `selectByScroll` applied, in either mode, to a natural scroll value
below the source length: infinite mode normalizes `i` to itself, normal
mode rounds `i` to itself, the upper clamp does not fire, so the scroll
is stored unchanged, the selection becomes `source[i]`, and `onChange`
fires with exactly that option. -/
theorem selectByScroll_nat (st : State) (i : ℕ)
    (hi : i < st.source.length) :
    selectByScroll st (i : ℚ) =
      ({ st with
          scroll := (i : ℚ)
          selected := st.source.get? i }, (st.source.get? i).toList) := by
  have hlt : (i : ℚ) < (st.source.length : ℚ) := by exact_mod_cast hi
  have hnotgt : ¬ ((i : ℚ) > (st.source.length : ℚ) - 1) := by
    have : (i : ℚ) + 1 ≤ (st.source.length : ℚ) := by exact_mod_cast hi
    linarith
  have hidx : jsIndexQ st.source (i : ℚ) = st.source.get? i := by
    unfold jsIndexQ
    rw [if_pos ⟨by positivity, by simp⟩]
    norm_num
  cases hm : st.mode with
  | infinite =>
    have hs1 : normalizeScroll st.source.length (i : ℚ) = (i : ℚ) :=
      normalizeScroll_of_nonneg_lt _ _ (by positivity) hlt
    simp only [selectByScroll, hm, hs1, if_neg hnotgt, hidx]
  | normal =>
    have hs1 : ((jsRound ((i : ℕ) : ℚ) : ℤ) : ℚ) = ((i : ℕ) : ℚ) := by
      rw [show ((i : ℕ) : ℚ) = (((i : ℕ) : ℤ) : ℚ) by push_cast; ring,
        jsRound_intCast]
    simp only [selectByScroll, hm, hs1, if_neg hnotgt, hidx]

theorem joinRep_zero (l : List SelectorOption) : joinRep 0 l = [] := rfl

theorem joinRep_succ (n : ℕ) (l : List SelectorOption) :
    joinRep (n + 1) l = l ++ joinRep n l := by
  simp [joinRep, List.replicate_succ]

theorem joinRep_comm (n : ℕ) (l : List SelectorOption) :
    l ++ joinRep n l = joinRep n l ++ l := by
  induction n with
  | zero => simp [joinRep_zero]
  | succ n ihn =>
    rw [joinRep_succ]
    calc l ++ (l ++ joinRep n l) = l ++ (joinRep n l ++ l) := by rw [ihn]
      _ = (l ++ joinRep n l) ++ l := by rw [List.append_assoc]

theorem joinRep_succ_right (n : ℕ) (l : List SelectorOption) :
    joinRep n l ++ l = joinRep (n + 1) l := by
  rw [joinRep_succ, joinRep_comm]

theorem joinRep_length (n : ℕ) (l : List SelectorOption) :
    (joinRep n l).length = n * l.length := by
  induction n with
  | zero => simp [joinRep_zero]
  | succ n ihn =>
    rw [joinRep_succ, List.length_append, ihn]
    ring

/-- The expansion loop, started on `j ≥ 1` copies, ends on the least
`n ≥ j` whose total length reaches `hc`. -/
theorem concatGo_joinRep (hc : ℕ) (new : List SelectorOption)
    (hnew : 0 < new.length) :
    ∀ fuel j, 0 < j → hc - j * new.length ≤ fuel →
      ∃ n, j ≤ n ∧ concatGo hc new (joinRep j new) = joinRep n new ∧
        hc ≤ n * new.length ∧
        (∀ m, j ≤ m → hc ≤ m * new.length → n ≤ m) := by
  intro fuel
  induction fuel with
  | zero =>
    intro j hj hle
    have hlen := joinRep_length j new
    have hstop : ¬((joinRep j new).length < hc ∧ 0 < new.length) := by
      rw [hlen]
      omega
    exact ⟨j, le_refl j, concatGo_done _ _ _ hstop, by omega, fun m hm _ => hm⟩
  | succ f ihf =>
    intro j hj hle
    by_cases hlt : (joinRep j new).length < hc
    · have hjlen : j * new.length < hc := by rwa [joinRep_length] at hlt
      have hstep : concatGo hc new (joinRep j new)
          = concatGo hc new (joinRep (j + 1) new) := by
        rw [concatGo_step _ _ _ ⟨hlt, hnew⟩, joinRep_succ_right]
      have hmul : (j + 1) * new.length = j * new.length + new.length :=
        Nat.succ_mul j new.length
      obtain ⟨n, hn1, hn2, hn3, hn4⟩ := ihf (j + 1) (by omega) (by omega)
      refine ⟨n, by omega, by rw [hstep]; exact hn2, hn3, ?_⟩
      intro m hm hmlen
      have hmj : m ≠ j := by
        intro hEq
        rw [hEq] at hmlen
        omega
      exact hn4 m (by omega) hmlen
    · have hlen := joinRep_length j new
      have hstop : ¬((joinRep j new).length < hc ∧ 0 < new.length) := by
        intro hcon
        exact hlt hcon.1
      exact ⟨j, le_refl j, concatGo_done _ _ _ hstop, by omega, fun m hm _ => hm⟩

end Cyl

/-- **C5**: for every valid index `i` of the source, in both normal and
infinite mode, `indexFromPosition (positionFromIndex i) = i` — the
index-to-position mapping followed by the position-to-index mapping is the
identity on valid indices (simple variant `getSourceIndexFromPosition` /
`getPositionFromSourceIndex`). -/
theorem roundtrip_index_position (mode : Mode) (count len : ℕ) (i : ℤ)
    (hlen : 0 < len) (h0 : 0 ≤ i) (h1 : i < len) :
    Simple.getSourceIndexFromPosition mode count len
      (Simple.getPositionFromSourceIndex mode count len i) = i := by
  cases mode with
  | infinite =>
    have hd := Simple.domIndex_eval0 count len i
    simp only [Simple.getSourceIndexFromPosition]
    rw [hd, jsRound_intCast]
    have hlen' : (0 : ℤ) < (len : ℤ) := by exact_mod_cast hlen
    rw [js_double_mod _ _ hlen']
    have : (2 * (len : ℤ) + i) = i + (len : ℤ) * 2 := by ring
    rw [this, Int.add_mul_emod_self_left]
    exact Int.emod_eq_of_lt h0 h1
  | normal =>
    simp only [Simple.getSourceIndexFromPosition]
    have : -(Simple.getPositionFromSourceIndex .normal count len i) / Simple.itemHeight
        = ((i : ℤ) : ℚ) := by
      unfold Simple.getPositionFromSourceIndex Simple.itemHeight
      push_cast
      ring
    rw [this, jsRound_intCast]
    omega

/-- Witness for `roundtrip_index_position` at `mode = infinite`,
`count = 5`, `len = 3`, `i = 1`. -/
theorem roundtrip_index_position_witness :
    (0 : ℕ) < 3 ∧ (0 : ℤ) ≤ 1 ∧ (1 : ℤ) < 3 ∧
      Simple.getSourceIndexFromPosition .infinite 5 3
        (Simple.getPositionFromSourceIndex .infinite 5 3 1) = 1 :=
  ⟨by decide, by decide, by decide,
    roundtrip_index_position .infinite 5 3 1 (by decide) (by decide) (by decide)⟩

/-- **C6**: in infinite mode, for every valid index `i` and every integer
`k`, `indexFromPosition (positionFromIndex i + k * cycleLength) = i`,
where `cycleLength = len * itemHeight` is the source length in position
units (simple variant). -/
theorem modulo_correctness_infinite (count len : ℕ) (i k : ℤ)
    (hlen : 0 < len) (h0 : 0 ≤ i) (h1 : i < len) :
    Simple.getSourceIndexFromPosition .infinite count len
      (Simple.getPositionFromSourceIndex .infinite count len i
        + k * (len * Simple.itemHeight)) = i := by
  have hd := Simple.domIndex_eval count len i k
  simp only [Simple.getSourceIndexFromPosition]
  rw [hd, jsRound_intCast]
  have hlen' : (0 : ℤ) < (len : ℤ) := by exact_mod_cast hlen
  rw [js_double_mod _ _ hlen']
  have : (2 * (len : ℤ) + i - k * len) = i + (len : ℤ) * (2 - k) := by ring
  rw [this, Int.add_mul_emod_self_left]
  exact Int.emod_eq_of_lt h0 h1

/-- Witness for `modulo_correctness_infinite` at `count = 5`, `len = 3`,
`i = 2`, `k = -4`. -/
theorem modulo_correctness_infinite_witness :
    (0 : ℕ) < 3 ∧ (0 : ℤ) ≤ 2 ∧ (2 : ℤ) < 3 ∧
      Simple.getSourceIndexFromPosition .infinite 5 3
        (Simple.getPositionFromSourceIndex .infinite 5 3 2
          + (-4) * (3 * Simple.itemHeight)) = 2 :=
  ⟨by decide, by decide, by decide,
    modulo_correctness_infinite 5 3 2 (-4) (by decide) (by decide) (by decide)⟩

/-- **C3**: for every release gesture (a sample history ending in the two
most recent samples `p` and `q` with distinct timestamps), writing `raw`
for the raw velocity `(((p.y - q.y) / itemHeight) * 1000) / (q.t - p.t)`:
if `|raw| > 30` the velocity passed into the deceleration phase is exactly
`30` with the sign of `raw`, and if `|raw| ≤ 30` it is `raw` unchanged
(cylinder variant `handleTouchEnd`). -/
theorem velocity_clamp (l : List (ℚ × ℚ)) (p q : ℚ × ℚ) (ih : ℚ)
    (hdt : q.2 - p.2 ≠ 0) :
    (30 < |((p.1 - q.1) / ih * 1000) / (q.2 - p.2)| →
      Cyl.handleTouchEndVelocity ih (l ++ [p, q]) =
        .fin (30 * (if 0 < ((p.1 - q.1) / ih * 1000) / (q.2 - p.2) then 1 else -1))) ∧
    (|((p.1 - q.1) / ih * 1000) / (q.2 - p.2)| ≤ 30 →
      Cyl.handleTouchEndVelocity ih (l ++ [p, q]) =
        .fin (((p.1 - q.1) / ih * 1000) / (q.2 - p.2))) := by
  have hlen : (l ++ [p, q]).length = l.length + 2 := by simp
  have hne : ¬ (l ++ [p, q]).length = 1 := by omega
  have h2 : l.length + 2 - 2 = l.length := by omega
  have h1 : l.length + 2 - 1 = l.length + 1 := by omega
  simp only [Cyl.handleTouchEndVelocity, hlen, if_neg hne, h2, h1,
    Cyl.getD_append_two_left, Cyl.getD_append_two_right, jsDiv, if_neg hdt]
  constructor
  · intro hgt
    simp only [Cyl.clampVelocity, JSVal.absGt30, JSVal.gtZero,
      decide_eq_true_eq, if_pos hgt]
    rw [if_neg (show ¬ l.length + 2 = 1 by omega)]
  · intro hle
    simp only [Cyl.clampVelocity, JSVal.absGt30, JSVal.gtZero,
      decide_eq_true_eq, if_neg (not_lt.mpr hle)]
    rw [if_neg (show ¬ l.length + 2 = 1 by omega)]

/-- Witness for `velocity_clamp`: samples `(72, 0)` then `(36, 1)` with
item height `36` give a raw velocity of `1000` item-units/s, and the
engine receives exactly `30`. -/
theorem velocity_clamp_witness :
    ((1 : ℚ) - 0 ≠ 0) ∧
      Cyl.handleTouchEndVelocity 36 [(72, 0), (36, 1)] = .fin 30 := by
  refine ⟨by norm_num, ?_⟩
  have h := (velocity_clamp [] (72, 0) (36, 1) 36 (by norm_num)).1
    (by rw [show ((72, 0) : ℚ × ℚ).1 = 72 from rfl, show ((36, 1) : ℚ × ℚ).1 = 36 from rfl,
          show ((36, 1) : ℚ × ℚ).2 = 1 from rfl, show ((72, 0) : ℚ × ℚ).2 = 0 from rfl]
        rw [show ((72 : ℚ) - 36) / 36 * 1000 / (1 - 0) = 1000 by norm_num]
        rw [abs_of_pos (by norm_num)]
        norm_num)
  norm_num at h
  exact h

/-- **C4** fails on the code: a press-end whose two most recent samples
share a timestamp (`Δt = 0`) does not yield velocity `0`.  JavaScript
computes `(((startY - endY) / itemHeight) * 1000) / 0 = ±Infinity`, and the
clamp maps that to `±30`, so the gesture runs a full deceleration with
velocity `30` instead of degrading to an immediate snap; with equal
positions as well, the velocity is `NaN`.  Concretely, samples
`(100, 5)` and `(64, 5)` with item height `36` give velocity `30`. -/
theorem zero_duration_sample_not_zero_velocity :
    Cyl.handleTouchEndVelocity 36 [(100, 5), (64, 5)] = .fin 30 ∧
      Cyl.handleTouchEndVelocity 36 [(100, 5), (64, 5)] ≠ .fin 0 ∧
      Cyl.handleTouchEndVelocity 36 [(64, 5), (64, 5)] = .nan := by
  have h30 : Cyl.handleTouchEndVelocity 36 [(100, 5), (64, 5)] = .fin 30 := by
    simp only [Cyl.handleTouchEndVelocity, List.length_cons, List.length_nil]
    norm_num [List.getD, List.get?, jsDiv, Cyl.clampVelocity, JSVal.absGt30, JSVal.gtZero]
  have hnan : Cyl.handleTouchEndVelocity 36 [(64, 5), (64, 5)] = .nan := by
    simp only [Cyl.handleTouchEndVelocity, List.length_cons, List.length_nil]
    norm_num [List.getD, List.get?, jsDiv, Cyl.clampVelocity, JSVal.absGt30, JSVal.gtZero]
  refine ⟨h30, ?_, hnan⟩
  rw [h30]
  intro h
  have : (30 : ℚ) = 0 := JSVal.fin.inj h
  norm_num at this

/-- **C1** fails on the code.  Simple variant: `updateSource` looks the old
*selected index* (not the selected value) up among the new values —
`source.findIndex((s) => s.value === currentIndex)` with `currentIndex = 1`
— finds nothing and silently resets to index 0, so `getValue()` returns
`5`, not the claimed `2` (no callback fires).  Cylinder variant:
`updateSource` calls `selectByScroll(scroll)`, which *does* invoke the
change callback (here once, with the option of value 2), contradicting the
claimed zero invocations, although `getValue()` is `2` there. -/
theorem updateSource_preserve_selection_bug :
    (Simple.getValue (Simple.updateSource
        (Simple.init .infinite 5 [⟨1, "a"⟩, ⟨2, "b"⟩, ⟨3, "c"⟩] (some 2))
        [⟨5, "x"⟩, ⟨2, "y"⟩, ⟨9, "z"⟩]).1 = 5) ∧
    ((Simple.updateSource
        (Simple.init .infinite 5 [⟨1, "a"⟩, ⟨2, "b"⟩, ⟨3, "c"⟩] (some 2))
        [⟨5, "x"⟩, ⟨2, "y"⟩, ⟨9, "z"⟩]).2 = []) ∧
    ((Cyl.updateSource
        (Cyl.init .infinite 4 [⟨1, "a"⟩, ⟨2, "b"⟩, ⟨3, "c"⟩] (some 2))
        [⟨5, "x"⟩, ⟨2, "y"⟩, ⟨9, "z"⟩]).2.length = 1) ∧
    (Cyl.getValue (Cyl.updateSource
        (Cyl.init .infinite 4 [⟨1, "a"⟩, ⟨2, "b"⟩, ⟨3, "c"⟩] (some 2))
        [⟨5, "x"⟩, ⟨2, "y"⟩, ⟨9, "z"⟩]).1 = 2) := by
  refine ⟨by decide, by decide, ?_⟩
  norm_num [Cyl.updateSource, Cyl.init, Cyl.create, Cyl.createSource, Cyl.halfCount,
    Cyl.itemCount, Cyl.selectByScroll, Cyl.getValue, Cyl.concatGo_done,
    Cyl.normalizeScroll_eval, jsFmod, jsTrunc, jsFindIndex, jsIndex, jsIndexQ,
    List.findIdx?_cons]

/-- **C2** fails on the code (cylinder variant): after a wheel event
schedules the 150 ms debounce `setTimeout`, `destroy()` runs `stop()` —
which only calls `cancelAnimationFrame(moveT)` and therefore does not
cancel the timeout stored in the same `moveT` variable — and never calls
`clearTimeout`.  When the host then fires the timer, its callback runs
`selectByScroll` and invokes `onChange` after destruction.  Concretely:
source `[{1,a},{2,b},{3,c}]`, a wheel event with `deltaY = 0`, then
`destroy()`, then the timer: the destroyed instance still emits the
callback `{1, a}`. -/
theorem destroy_not_terminal :
    ((Cyl.step (Cyl.step
        (Cyl.init .infinite 4 [⟨1, "a"⟩, ⟨2, "b"⟩, ⟨3, "c"⟩] none)
        (.wheel 0 36)).1 .destroyEv).1.destroyed = true) ∧
    ((Cyl.step (Cyl.step
        (Cyl.init .infinite 4 [⟨1, "a"⟩, ⟨2, "b"⟩, ⟨3, "c"⟩] none)
        (.wheel 0 36)).1 .destroyEv).1.timerPending = true) ∧
    ((Cyl.step ((Cyl.step (Cyl.step
        (Cyl.init .infinite 4 [⟨1, "a"⟩, ⟨2, "b"⟩, ⟨3, "c"⟩] none)
        (.wheel 0 36)).1 .destroyEv).1) .timerFire).2 = [⟨1, "a"⟩]) := by
  refine ⟨?_, ?_, ?_⟩ <;>
    norm_num [Cyl.step, Cyl.init, Cyl.create, Cyl.createSource, Cyl.halfCount,
      Cyl.itemCount, Cyl.concatGo_done, Cyl.handleWheel, Cyl.destroy,
      Cyl.wheelTimerFire, Cyl.selectByScroll, Cyl.moveTo, Cyl.normalizeScroll_eval,
      jsFmod, jsTrunc, jsRound, jsIndexQ, jsFindIndex]

/-- **C7** as stated is false on the simple variant: with a running
animation (`animationId = true`) and value `2` present in the source,
`select(2)` emits *no* change callback (the claim demands exactly one on
completion) and leaves the animation frame loop running (the claim demands
that running motion be cancelled). -/
theorem select_claim_counterexample :
    ((Simple.select
        ⟨.infinite, 5, [⟨1, "a"⟩, ⟨2, "b"⟩, ⟨3, "c"⟩], 0, 0, 0, true, false, true⟩
        2).2 = []) ∧
    ((Simple.select
        ⟨.infinite, 5, [⟨1, "a"⟩, ⟨2, "b"⟩, ⟨3, "c"⟩], 0, 0, 0, true, false, true⟩
        2).1.animationId = true) := by
  exact ⟨by decide, by decide⟩

/-- **C7** amended: `select(v)` with an absent value is a no-op with no
callback in both variants.  With the value present (first match at index
`i`/`j`): the cylinder variant cancels running motion, settles at the
aligned scroll `j`, and invokes the change callback exactly once with the
resolved option `source[j]`; the simple variant sets the current index and
aligned position but neither cancels running motion nor invokes the
callback.  Both variants are covered in both modes, without restriction. -/
theorem select_contract (sst : Simple.State) (cst : Cyl.State) (v : ℤ) (i j : ℕ) :
    (sst.source.findIdx? (fun s => s.value == v) = none →
      Simple.select sst v = (sst, [])) ∧
    (sst.source.findIdx? (fun s => s.value == v) = some i →
      Simple.select sst v =
        ({ sst with
            currentIndex := (i : ℤ)
            currentY := Simple.getPositionFromSourceIndex sst.mode sst.count
              sst.source.length (i : ℤ) }, [])) ∧
    (cst.source.findIdx? (fun s => s.value == v) = none →
      Cyl.select cst v = (cst, [])) ∧
    (cst.source.findIdx? (fun s => s.value == v) = some j →
      (Cyl.select cst v).1.moving = false ∧
      (Cyl.select cst v).1.scroll = (j : ℚ) ∧
      (Cyl.select cst v).2 = (cst.source.get? j).toList ∧
      (Cyl.select cst v).2.length = 1) := by
  refine ⟨?_, ?_, ?_, ?_⟩
  · intro hnone
    simp only [Simple.select, jsFindIndex, hnone]
    norm_num
  · intro hsome
    simp only [Simple.select, jsFindIndex, hsome]
    rw [if_pos (by omega : ((i : ℕ) : ℤ) ≠ -1)]
  · intro hnone
    simp only [Cyl.select, jsFindIndex, hnone]
    norm_num
  · intro hsome
    have hj : j < cst.source.length :=
      (List.findIdx?_eq_some_iff_getElem.mp hsome).1
    have hget : cst.source.get? j = some (cst.source.get ⟨j, hj⟩) :=
      List.get?_eq_get hj
    have hsel := Cyl.selectByScroll_nat
      { cst with moving := false, rafPending := false } j hj
    simp only [Cyl.select, jsFindIndex, hsome]
    rw [if_pos (by omega : ((j : ℕ) : ℤ) ≠ -1)]
    rw [show (((j : ℕ) : ℤ) : ℚ) = ((j : ℕ) : ℚ) by push_cast; ring]
    rw [hsel]
    refine ⟨rfl, rfl, rfl, ?_⟩
    rw [hget]
    rfl

/-- Witness for `select_contract`: cylinder state in infinite mode with a
running animation (`moving = true`), source `[{1,a},{2,b},{3,c}]`;
`select 2` finds index 1, cancels the motion and fires exactly one
callback. -/
theorem select_contract_witness :
    (([⟨1, "a"⟩, ⟨2, "b"⟩, ⟨3, "c"⟩] : List SelectorOption).findIdx?
        (fun s => s.value == (2 : ℤ)) = some 1) ∧
    ((Cyl.select
        ⟨.infinite, 4, [⟨1, "a"⟩, ⟨2, "b"⟩, ⟨3, "c"⟩], 0, none, true, true, false, false⟩
        2).1.moving = false ∧
      (Cyl.select
        ⟨.infinite, 4, [⟨1, "a"⟩, ⟨2, "b"⟩, ⟨3, "c"⟩], 0, none, true, true, false, false⟩
        2).2.length = 1) := by
  have h := (select_contract
    ⟨.infinite, 5, [], 0, 0, 0, false, false, true⟩
    ⟨.infinite, 4, [⟨1, "a"⟩, ⟨2, "b"⟩, ⟨3, "c"⟩], 0, none, true, true, false, false⟩
    2 0 1).2.2.2 (by decide)
  exact ⟨by decide, h.1, h.2.2.2⟩

/-- **C9**: the `decelerate` loop terminates for every finite initial
velocity: iterating the frame body, the velocity magnitude decays at
least geometrically with factor 0.95 (the normal-mode bound clamp can
only zero it), so after finitely many frames `|velocity| < 0.5` and the
loop transitions to `snapToNearest`. -/
theorem decelerate_terminates (mode : Mode) (count len : ℕ) (v y : ℚ)
    (hlen : 0 < len) :
    ∃ n : ℕ, |((Simple.decelStep mode count len)^[n] (v, y)).1| < 1/2 := by
  have hv1 : (0 : ℚ) < |v| + 1 := by positivity
  obtain ⟨n, hn⟩ := exists_pow_lt_of_lt_one
    (show (0 : ℚ) < (1/2) / (|v| + 1) by positivity)
    (show (19/20 : ℚ) < 1 by norm_num)
  refine ⟨n, ?_⟩
  calc |((Simple.decelStep mode count len)^[n] (v, y)).1|
      ≤ |v| * (19/20) ^ n := by
        simpa using Simple.decelStep_iterate_abs_le mode count len (v, y) n
    _ ≤ (|v| + 1) * (19/20) ^ n :=
        mul_le_mul_of_nonneg_right (by linarith [abs_nonneg v]) (by positivity)
    _ < (|v| + 1) * ((1/2) / (|v| + 1)) :=
        mul_lt_mul_of_pos_left hn hv1
    _ = 1/2 := by
        field_simp
        ring

/-- Witness for `decelerate_terminates`: infinite mode, `count = 5`,
`len = 3`, initial velocity `100`, initial position `0`. -/
theorem decelerate_terminates_witness :
    (0 : ℕ) < 3 ∧
      ∃ n : ℕ, |((Simple.decelStep .infinite 5 3)^[n] (100, 0)).1| < 1/2 :=
  ⟨by decide, decelerate_terminates .infinite 5 3 100 0 (by decide)⟩

/-- **C8** fails on the simple variant: the first `destroy()` succeeds
(and, note, leaves the wheel-debounce timer scheduled), but a second
`destroy()` reaches `el.removeChild(wrapper)` with `wrapper` no longer a
child of `el` and throws a DOM `NotFoundError` instead of being a no-op.
(The cylinder variant's `destroy` only clears `el.innerHTML` and is
harmless when repeated.) -/
theorem destroy_not_idempotent :
    ((Simple.destroy
        ⟨.infinite, 5, [⟨1, "a"⟩, ⟨2, "b"⟩, ⟨3, "c"⟩], 1, 0, 0, true, true, true⟩).map
      (fun s => s.wheelTimeout) = .ok true) ∧
    ((Simple.destroy
        ⟨.infinite, 5, [⟨1, "a"⟩, ⟨2, "b"⟩, ⟨3, "c"⟩], 1, 0, 0, true, true, true⟩).bind
      Simple.destroy = .error "NotFoundError") := by
  exact ⟨rfl, rfl⟩

/-- **C10**: in the cylinder variant in infinite mode, `create(sourceData)`
with a nonempty `sourceData` replaces the internal source by `sourceData`
concatenated with itself `n ≥ 1` times, where `n` is minimal such that
the resulting length reaches `halfCount = itemCount / 2`; consequently
the internal source length is the whole multiple `n * sourceData.length`
of the caller's list length.  (`normalizeScroll`, `selectByScroll`,
`getValue` and the `select` lookup in the embedding all read
`State.source`, which `Cyl.create` sets to exactly this expanded list.) -/
theorem create_expands_source (count : ℕ) (old new : List SelectorOption)
    (hnew : 0 < new.length) :
    ∃ n : ℕ, 0 < n ∧
      Cyl.createSource .infinite count old new = Cyl.joinRep n new ∧
      (Cyl.createSource .infinite count old new).length = n * new.length ∧
      Cyl.halfCount count ≤ n * new.length ∧
      (∀ m : ℕ, 0 < m → Cyl.halfCount count ≤ m * new.length → n ≤ m) := by
  obtain ⟨n, hn1, hn2, hn3, hn4⟩ :=
    Cyl.concatGo_joinRep (Cyl.halfCount count) new hnew (Cyl.halfCount count) 1
      one_pos (by omega)
  have hj1 : Cyl.joinRep 1 new = new := by simp [Cyl.joinRep]
  have hcs : Cyl.createSource .infinite count old new
      = Cyl.concatGo (Cyl.halfCount count) new new := by
    unfold Cyl.createSource
    rw [if_neg (by omega)]
  rw [hj1] at hn2
  refine ⟨n, by omega, ?_, ?_, hn3, fun m hm hmlen => hn4 m (by omega) hmlen⟩
  · rw [hcs]
    exact hn2
  · rw [hcs, hn2, Cyl.joinRep_length]

/-- Witness for `create_expands_source`: `count = 20` (so `halfCount =
10`) and a three-option source; the theorem instantiates with the
expansion taking `n = 4` copies. -/
theorem create_expands_source_witness :
    (0 : ℕ) < ([⟨1, "a"⟩, ⟨2, "b"⟩, ⟨3, "c"⟩] : List SelectorOption).length ∧
      ∃ n : ℕ, 0 < n ∧
        Cyl.createSource .infinite 20 [] [⟨1, "a"⟩, ⟨2, "b"⟩, ⟨3, "c"⟩]
          = Cyl.joinRep n [⟨1, "a"⟩, ⟨2, "b"⟩, ⟨3, "c"⟩] ∧
        (Cyl.createSource .infinite 20 [] [⟨1, "a"⟩, ⟨2, "b"⟩, ⟨3, "c"⟩]).length
          = n * ([⟨1, "a"⟩, ⟨2, "b"⟩, ⟨3, "c"⟩] : List SelectorOption).length ∧
        Cyl.halfCount 20 ≤ n * ([⟨1, "a"⟩, ⟨2, "b"⟩, ⟨3, "c"⟩] : List SelectorOption).length ∧
        (∀ m : ℕ, 0 < m →
          Cyl.halfCount 20 ≤ m * ([⟨1, "a"⟩, ⟨2, "b"⟩, ⟨3, "c"⟩] : List SelectorOption).length →
          n ≤ m) :=
  ⟨by decide, create_expands_source 20 [] [⟨1, "a"⟩, ⟨2, "b"⟩, ⟨3, "c"⟩] (by decide)⟩

end DatePicker
